import Mathlib

/-!
Shallow embedding of the dyff report model, its filter/exclude engine
(`pkg/dyff/reports.go`), the YAML renderer's document consolidation step
(`consolidateDiff` / `WriteReport`), and the CLI exit-code gating tail of
`writeReport`.

Go slices are modelled as Lean lists (a nil slice is the empty list), Go
pointers that are checked against nil are modelled as `Option`, and a Go
panic or nil-pointer dereference is modelled as `none` in an
`Option`-returning function.  External collaborators (the ytbx path
library and Go's regexp package) are modelled by the data the engine
actually consumes: a path carries its string rendering and its root
description, path parsing and regexp compilation are explicit function
parameters, and a compiled regexp is its matching function.
-/

set_option autoImplicit false

namespace DyffSpec

/-- Modelled from the spec: one element of a structural path, a mapping key
or sequence index, optionally carrying an identity key such as name=foo
(spec section 3, "Path").  This stands in for the external ytbx library's
path element type; the operations under verification never inspect the
element data itself, only the list of elements. -/
structure PathElement where
  idx : Int
  key : String
  name : String
deriving Repr, DecidableEq

/-- Modelled from the spec: a structural address inside a parsed document,
document-qualified (spec section 3, "Path").  `render` is the path's string
representation (ytbx `String()`), `rootDescription` identifies the
originating document, source plus document index (ytbx
`RootDescription()`); both are produced by the external ytbx collaborator
and carried here as data.  `pathElements` is the ordered element list; a
path addressing the document root has zero elements. -/
structure Path where
  render : String
  rootDescription : String
  pathElements : List PathElement
deriving Repr, DecidableEq

/-- Modelled from the spec: the change kind.  Per spec section 9 the
original is an open enumeration checked by value equality (character
constants), so the kind is a character and the Go zero value
`Char.ofNat 0` is distinct from the four named kinds. -/
abbrev Kind := Char

/-- Value present only in the target document. -/
def ADDITION : Kind := '+'

/-- Value present only in the source document. -/
def REMOVAL : Kind := '-'

/-- Value present in both documents, differing. -/
def MODIFICATION : Kind := '±'

/-- Sequence membership unchanged, order differs. -/
def ORDERCHANGE : Kind := '⇆'

/-- Modelled from the spec: one semantic change at a path, a kind plus
optional prior and new values (spec section 3, "Detail").  The value type
`V` stands for the external YAML node type; `From`/`To` are nilable
pointers in Go, hence `Option V`. -/
structure Detail (V : Type) where
  Kind : Kind
  From : Option V
  To : Option V
deriving Repr, DecidableEq

/-- The Go zero value of `Detail`: zero kind, nil `From`, nil `To`. -/
def zeroDetail {V : Type} : Detail V := ⟨Char.ofNat 0, none, none⟩

/-- Modelled from the spec: all details at one path (spec section 3,
"Diff").  The path is a nilable pointer in Go (`*ytbx.Path`), hence
`Option Path`. -/
structure Diff (V : Type) where
  Path : Option Path
  Details : List (Detail V)
deriving Repr, DecidableEq

/-- Modelled from the spec: the full ordered diff result between two
documents plus source metadata (spec section 3, "Report").  The metadata
type `M` stands for the external input-file type of `From`/`To`. -/
structure Report (V M : Type) where
  From : M
  To : M
  Diffs : List (Diff V)
deriving Repr, DecidableEq

variable {V M : Type}

/-- Embeds `Report.filter` (reports.go): builds a fresh report with the
same `From`/`To` and, in order, exactly the diffs whose path satisfies the
predicate. -/
def Report.filter (r : Report V M) (hasPath : Option Path → Bool) : Report V M :=
  { From := r.From, To := r.To, Diffs := r.Diffs.filter (fun d => hasPath d.Path) }

/-- One iteration of the keep-predicate loop of `Report.Filter`
(reports.go line 31-36): the argument string is parsed by the external
ytbx path parser (`parse`; an error is `none`), and matches when parsing
succeeded, the diff path is non-nil, and the two string renderings are
equal. -/
def pathStringMatches (parse : String → Option Path) (filterPath : Option Path)
    (s : String) : Bool :=
  match parse s, filterPath with
  | some p, some fp => p.render == fp.render
  | _, _ => false

/-- Embeds the keep-predicate loop of `Report.Filter` (reports.go): true
iff some argument string matches the diff path. -/
def matchesParsedPath (parse : String → Option Path) (paths : List String)
    (filterPath : Option Path) : Bool :=
  paths.any (pathStringMatches parse filterPath)

/-- Embeds `Report.Filter` (reports.go lines 25-40). -/
def Report.Filter (r : Report V M) (parse : String → Option Path)
    (paths : List String) : Report V M :=
  if paths.isEmpty then r
  else r.filter (fun fp => matchesParsedPath parse paths fp)

/-- Embeds `Report.Exclude` (reports.go lines 43-58). -/
def Report.Exclude (r : Report V M) (parse : String → Option Path)
    (paths : List String) : Report V M :=
  if paths.isEmpty then r
  else r.filter (fun fp => !(matchesParsedPath parse paths fp))

/-- Embeds the document keep-predicate loop of `Report.FilterDocument`:
an argument matches a non-nil diff path whose root description equals it. -/
def matchesDocument (paths : List String) (filterPath : Option Path) : Bool :=
  paths.any (fun s =>
    match filterPath with
    | some fp => s == fp.rootDescription
    | none => false)

/-- Embeds `Report.FilterDocument` (reports.go lines 60-74). -/
def Report.FilterDocument (r : Report V M) (paths : List String) : Report V M :=
  if paths.isEmpty then r
  else r.filter (fun fp => matchesDocument paths fp)

/-- Embeds `Report.ExcludeDocument` (reports.go lines 76-90). -/
def Report.ExcludeDocument (r : Report V M) (paths : List String) : Report V M :=
  if paths.isEmpty then r
  else r.filter (fun fp => !(matchesDocument paths fp))

/-- Modelled from the spec: a compiled regular expression of the external
Go regexp package, represented by its matching function. -/
structure Regexp where
  MatchString : String → Bool

/-- Embeds the compilation loop of the regexp-based operations
(reports.go): each pattern is compiled with `regexp.MustCompile`, which
panics on the first pattern that fails to compile; the panic is modelled
as `none`.  Compilation itself is the external Go regexp package, passed
as `compile`. -/
def compileAll (compile : String → Option Regexp) : List String → Option (List Regexp)
  | [] => some []
  | p :: rest =>
    match compile p with
    | none => none
    | some re =>
      match compileAll compile rest with
      | none => none
      | some res => some (re :: res)

/-- Embeds `Report.FilterRegexp` (reports.go lines 93-111); `none` is the
`MustCompile` panic. -/
def Report.FilterRegexp (r : Report V M) (compile : String → Option Regexp)
    (pattern : List String) : Option (Report V M) :=
  if pattern.isEmpty then some r
  else
    match compileAll compile pattern with
    | none => none
    | some regexps =>
      some (r.filter (fun fp =>
        regexps.any (fun re =>
          match fp with
          | some p => re.MatchString p.render
          | none => false)))

/-- Embeds `Report.ExcludeRegexp` (reports.go lines 114-132). -/
def Report.ExcludeRegexp (r : Report V M) (compile : String → Option Regexp)
    (pattern : List String) : Option (Report V M) :=
  if pattern.isEmpty then some r
  else
    match compileAll compile pattern with
    | none => none
    | some regexps =>
      some (r.filter (fun fp =>
        !(regexps.any (fun re =>
          match fp with
          | some p => re.MatchString p.render
          | none => false))))

/-- Embeds `Report.FilterDocumentRegexp` (reports.go lines 134-152). -/
def Report.FilterDocumentRegexp (r : Report V M) (compile : String → Option Regexp)
    (pattern : List String) : Option (Report V M) :=
  if pattern.isEmpty then some r
  else
    match compileAll compile pattern with
    | none => none
    | some regexps =>
      some (r.filter (fun fp =>
        regexps.any (fun re =>
          match fp with
          | some p => re.MatchString p.rootDescription
          | none => false)))

/-- Embeds `Report.ExcludeDocumentRegexp` (reports.go lines 154-172). -/
def Report.ExcludeDocumentRegexp (r : Report V M) (compile : String → Option Regexp)
    (pattern : List String) : Option (Report V M) :=
  if pattern.isEmpty then some r
  else
    match compileAll compile pattern with
    | none => none
    | some regexps =>
      some (r.filter (fun fp =>
        !(regexps.any (fun re =>
          match fp with
          | some p => re.MatchString p.rootDescription
          | none => false))))

/-- Embeds `Report.IgnoreValueChanges` (reports.go lines 174-195): keeps
exactly the diffs carrying no `MODIFICATION` detail. -/
def Report.IgnoreValueChanges (r : Report V M) : Report V M :=
  { From := r.From, To := r.To,
    Diffs := r.Diffs.filter (fun d =>
      !(d.Details.any (fun det => det.Kind == MODIFICATION))) }

/-- Embeds the per-diff test of `Report.IgnoreNewDocuments` (reports.go
line 205): `len(diff.Details) == 1 && diff.Details[0].Kind == ADDITION &&
diff.Path.PathElements == nil`, evaluated left to right; dereferencing a
nil `diff.Path` is a Go nil-pointer panic, modelled as `none`. -/
def diffIsNewDocument (d : Diff V) : Option Bool :=
  if d.Details.length == 1 && (d.Details.headD zeroDetail).Kind == ADDITION then
    match d.Path with
    | some p => some p.pathElements.isEmpty
    | none => none
  else some false

/-- The diff-collecting loop of `Report.IgnoreNewDocuments`, in input
order; `none` propagates the nil-pointer panic of `diffIsNewDocument`. -/
def ignoreNewDocumentsList : List (Diff V) → Option (List (Diff V))
  | [] => some []
  | d :: rest =>
    match diffIsNewDocument d with
    | none => none
    | some true => ignoreNewDocumentsList rest
    | some false =>
      match ignoreNewDocumentsList rest with
      | none => none
      | some ds => some (d :: ds)

/-- Embeds `Report.IgnoreNewDocuments` (reports.go lines 197-215). -/
def Report.IgnoreNewDocuments (r : Report V M) : Option (Report V M) :=
  match ignoreNewDocumentsList r.Diffs with
  | none => none
  | some ds => some { From := r.From, To := r.To, Diffs := ds }

/-- Embeds the per-diff detail rule of `consolidateDiff` (YAML renderer):
`var deet Detail` starts as the Go zero value; with exactly one detail it
becomes that detail; with exactly two details the loop copies `To` from
every `ADDITION` detail and `From` from every `REMOVAL` detail and the
kind is then forced to `MODIFICATION`; any other count leaves the zero
value untouched. -/
def consolidateDetail {V : Type} : List (Detail V) → Detail V
  | [d] => d
  | [d1, d2] =>
    let step := fun (acc det : Detail V) =>
      if det.Kind == ADDITION then { acc with To := det.To }
      else if det.Kind == REMOVAL then { acc with From := det.From }
      else acc
    let deet := step (step zeroDetail d1) d2
    { deet with Kind := MODIFICATION }
  | _ => zeroDetail

/-- Appends a diff to the group of key `k`, creating the group at the end
when the key is new.  This realises the `map[string][]Diff` of
`consolidateDiff` as an association list; the mapping's content per key is
exactly the Go map's, and the key order is first-seen insertion order.
(Go's own map range order is unspecified and randomised; see the theorems
on rendering order.) -/
def insertGroup {V : Type} (m : List (String × List (Diff V))) (k : String)
    (d : Diff V) : List (String × List (Diff V)) :=
  match m with
  | [] => [(k, [d])]
  | (k', ds) :: rest =>
    if k' == k then (k', ds ++ [d]) :: rest
    else (k', ds) :: insertGroup rest k d

/-- The grouping loop of `consolidateDiff`: each input diff contributes,
under the key `diff.Path.RootDescription()`, a fresh diff with the same
path and the single consolidated detail.  Calling `RootDescription` on a
nil path pointer is a Go nil-pointer panic, modelled as `none`. -/
def consolidateGroups {V : Type} (m : List (String × List (Diff V))) :
    List (Diff V) → Option (List (String × List (Diff V)))
  | [] => some m
  | d :: rest =>
    match d.Path with
    | none => none
    | some p =>
      consolidateGroups
        (insertGroup m p.rootDescription ⟨d.Path, [consolidateDetail d.Details]⟩) rest

/-- Embeds `consolidateDiff` of the YAML renderer (the `YAMLReport`
receiver only reads the embedded report's `Diffs`). -/
def consolidateDiff {V M : Type} (r : Report V M) :
    Option (List (String × List (Diff V))) :=
  consolidateGroups [] r.Diffs

/-- Embeds the exit-code gating tail of the CLI `writeReport` (the code
reached only after `reportWriter.WriteReport` returned without error):
with `--set-exit-code` enabled it signals `errorWithExitCode` 0 when
`len(report.Diffs)` is 0 and 1 otherwise; disabled it returns nil, so no
0/1 difference status is signalled.  The signalled exit value is the
`Nat` inside the `Option`. -/
def writeReportExitSignal (exitWithCode : Bool) (r : Report V M) : Option Nat :=
  if exitWithCode then
    match r.Diffs.length with
    | 0 => some 0
    | _ => some 1
  else none

/-- The frame property of claim C3: same `From`, same `To`, and the diffs
of the result are a subsequence of the input's diffs in the original
relative order. -/
def preservesFrame (r res : Report V M) : Prop :=
  res.From = r.From ∧ res.To = r.To ∧ res.Diffs.Sublist r.Diffs

/-- The removal predicate of claim C5 stated on a diff: a single
`ADDITION` detail at a path with zero elements (a nil diff path is not a
path with zero elements; it makes the Go code panic instead). -/
def isNewDocumentDiff (d : Diff V) : Bool :=
  d.Details.length == 1 && (d.Details.headD zeroDetail).Kind == ADDITION &&
    (match d.Path with
     | some p => p.pathElements.isEmpty
     | none => false)

/-- Concrete fixture: a non-root path in document `file1.yaml (doc 0)`. -/
def pItems : Path := ⟨"spec.items", "file1.yaml (doc 0)", [⟨-1, "spec", ""⟩, ⟨-1, "items", ""⟩]⟩

/-- Concrete fixture: the root path of document `file1.yaml (doc 0)`. -/
def pRootA : Path := ⟨"(root level)", "file1.yaml (doc 0)", []⟩

/-- Concrete fixture: the root path of document `file2.yaml (doc 0)`. -/
def pRootB : Path := ⟨"(root level)", "file2.yaml (doc 0)", []⟩

/-- Concrete fixture: an `ADDITION` detail with `To = 2`. -/
def dAdd : Detail Nat := ⟨ADDITION, none, some 2⟩

/-- Concrete fixture: a `REMOVAL` detail with `From = 1`. -/
def dRem : Detail Nat := ⟨REMOVAL, some 1, none⟩

/-- Concrete fixture: a `MODIFICATION` detail with `From = 1`, `To = 2`. -/
def dMod : Detail Nat := ⟨MODIFICATION, some 1, some 2⟩

/-- Concrete fixture report: one modification under `spec.items` of
document A and one whole-document addition at the root of document B. -/
def reportW : Report Nat Nat :=
  ⟨10, 20, [⟨some pItems, [dMod]⟩, ⟨some pRootB, [dAdd]⟩]⟩

/-- Concrete fixture report whose single diff carries three details. -/
def rThreeDetails : Report Nat Nat :=
  ⟨0, 0, [⟨some pRootA, [dMod, dMod, dMod]⟩]⟩

/-- Concrete fixture report with diffs in two distinct documents. -/
def rTwoDocs : Report Nat Nat :=
  ⟨0, 0, [⟨some pRootA, [dMod]⟩, ⟨some pRootB, [dMod]⟩]⟩

/-- Concrete fixture report containing a nil-path diff next to an
ordinary one. -/
def rNilPath : Report Nat Nat :=
  ⟨10, 20, [⟨none, [dMod]⟩, ⟨some pItems, [dMod]⟩]⟩

/-- Concrete fixture parser mapping the single string `spec.items` to the
fixture path `pItems` and failing on everything else. -/
def parseW : String → Option Path :=
  fun s => if s == "spec.items" then some pItems else none

/-- Concrete fixture regexp compiler: compiles every pattern to a regexp
matching every string. -/
def compileW : String → Option Regexp :=
  fun _ => some ⟨fun _ => true⟩

/-- Concrete fixture regexp compiler failing on the single pattern `[`. -/
def compileBad : String → Option Regexp :=
  fun s => if s == "[" then none else some ⟨fun _ => true⟩

/-- Concrete fixture report exercising the new-document removal: a root
removal, a whole-document addition, a non-root addition, and a two-detail
root diff. -/
def rNewDocs : Report Nat Nat :=
  ⟨1, 2, [⟨some pRootA, [dRem]⟩, ⟨some pRootA, [dAdd]⟩,
    ⟨some pItems, [dAdd]⟩, ⟨some pRootA, [dAdd, dRem]⟩]⟩

/-- The report `rNewDocs.IgnoreNewDocuments` evaluates to: only the
whole-document addition is removed. -/
def resNewDocs : Report Nat Nat :=
  ⟨1, 2, [⟨some pRootA, [dRem]⟩, ⟨some pItems, [dAdd]⟩,
    ⟨some pRootA, [dAdd, dRem]⟩]⟩

/-- `Report.filter` keeps `From` and `To` and selects an in-order
subsequence of the diffs. -/
theorem filter_frame (r : Report V M) (p : Option Path → Bool) :
    preservesFrame r (r.filter p) :=
  ⟨rfl, rfl, List.filter_sublist _⟩

/-- Every report preserves its own frame. -/
theorem preservesFrame_refl (r : Report V M) : preservesFrame r r :=
  ⟨rfl, rfl, List.Sublist.refl _⟩

/-- Claim C8: each of the eight path/document filter and exclude
operations, called with an empty argument list, returns the input report
unchanged (the regexp variants wrapped in `some`, their non-panicking
outcome). -/
theorem emptyArgs_identity (parse : String → Option Path)
    (compile : String → Option Regexp) (r : Report V M) :
    r.Filter parse [] = r ∧ r.Exclude parse [] = r ∧
    r.FilterDocument [] = r ∧ r.ExcludeDocument [] = r ∧
    r.FilterRegexp compile [] = some r ∧ r.ExcludeRegexp compile [] = some r ∧
    r.FilterDocumentRegexp compile [] = some r ∧
    r.ExcludeDocumentRegexp compile [] = some r :=
  ⟨rfl, rfl, rfl, rfl, rfl, rfl, rfl, rfl⟩

/-- Claim C4: with exit-code gating enabled, after a successful report
write the signalled status is 0 exactly when `Diffs` is empty and 1
otherwise; with gating disabled no 0/1 difference status is signalled. -/
theorem exit_code_gating (r : Report V M) :
    (writeReportExitSignal true r = if r.Diffs.isEmpty then some 0 else some 1) ∧
    writeReportExitSignal false r = none := by
  refine ⟨?_, rfl⟩
  cases h : r.Diffs with
  | nil => simp [writeReportExitSignal, h]
  | cons a l => simp [writeReportExitSignal, h]

/-- Compilation of a pattern list fails (the `MustCompile` panic) as soon
as one of its patterns fails to compile. -/
theorem compileAll_eq_none (compile : String → Option Regexp)
    (patterns : List String) (p : String) (hp : p ∈ patterns)
    (hc : compile p = none) : compileAll compile patterns = none := by
  induction patterns with
  | nil => cases hp
  | cons q rest ih =>
    unfold compileAll
    cases hq : compile q with
    | none => rfl
    | some re =>
      have hpr : p ∈ rest := by
        rcases List.mem_cons.mp hp with h | h
        · rw [h] at hc; rw [hc] at hq; cases hq
        · exact h
      rw [ih hpr]

/-- Claim C7: calling any of the four regexp-based filter or exclude
operations with a pattern that fails to compile is fatal (the
`regexp.MustCompile` panic, modelled as `none`): no report treating the
bad pattern as matching nothing is returned. -/
theorem badRegexp_is_fatal (compile : String → Option Regexp)
    (patterns : List String) (p : String) (hp : p ∈ patterns)
    (hc : compile p = none) (r : Report V M) :
    r.FilterRegexp compile patterns = none ∧
    r.ExcludeRegexp compile patterns = none ∧
    r.FilterDocumentRegexp compile patterns = none ∧
    r.ExcludeDocumentRegexp compile patterns = none := by
  have hne : patterns.isEmpty = false := by
    cases patterns
    · cases hp
    · rfl
  have hca := compileAll_eq_none compile patterns p hp hc
  refine ⟨?_, ?_, ?_, ?_⟩ <;>
    simp [Report.FilterRegexp, Report.ExcludeRegexp,
      Report.FilterDocumentRegexp, Report.ExcludeDocumentRegexp, hne, hca]

/-- Witness for claim C7: the fixture compiler rejects the pattern
`[`, and all four regexp operations on the fixture report are fatal. -/
theorem badRegexp_is_fatal_witness :
    ("[" ∈ ["["] ∧ compileBad "[" = none) ∧
    reportW.FilterRegexp compileBad ["["] = none ∧
    reportW.ExcludeRegexp compileBad ["["] = none ∧
    reportW.FilterDocumentRegexp compileBad ["["] = none ∧
    reportW.ExcludeDocumentRegexp compileBad ["["] = none :=
  ⟨⟨List.mem_singleton.mpr rfl, rfl⟩,
    badRegexp_is_fatal compileBad ["["] "[" (List.mem_singleton.mpr rfl) rfl reportW⟩

/-- A string the parser rejects never matches any diff path. -/
theorem pathStringMatches_of_parse_none (parse : String → Option Path)
    (s : String) (hs : parse s = none) (fp : Option Path) :
    pathStringMatches parse fp s = false := by
  unfold pathStringMatches
  rw [hs]

/-- Claim C6: an exact filter path string that fails to parse contributes
nothing to the keep/drop decision of `Filter` and `Exclude`: the match
predicate ignores it, and both operations still return the report obtained
from the remaining argument strings alone (never an error). -/
theorem unparseablePath_never_matches (parse : String → Option Path)
    (s : String) (hs : parse s = none) (pre post : List String)
    (fp : Option Path) (r : Report V M) :
    matchesParsedPath parse (pre ++ s :: post) fp =
      matchesParsedPath parse (pre ++ post) fp ∧
    r.Filter parse (pre ++ s :: post) =
      r.filter (fun x => matchesParsedPath parse (pre ++ post) x) ∧
    r.Exclude parse (pre ++ s :: post) =
      r.filter (fun x => !(matchesParsedPath parse (pre ++ post) x)) := by
  have key : ∀ x, matchesParsedPath parse (pre ++ s :: post) x =
      matchesParsedPath parse (pre ++ post) x := by
    intro x
    simp [matchesParsedPath, List.any_append, List.any_cons,
      pathStringMatches_of_parse_none parse s hs x]
  have hne : (pre ++ s :: post).isEmpty = false := by
    cases pre <;> rfl
  refine ⟨key fp, ?_, ?_⟩
  · rw [Report.Filter, hne]
    simp only [Bool.false_eq_true, if_false]
    exact congrArg r.filter (funext key)
  · rw [Report.Exclude, hne]
    simp only [Bool.false_eq_true, if_false]
    exact congrArg r.filter (funext fun x => congrArg Bool.not (key x))

/-- Witness for claim C6: the fixture parser rejects `b@d`, and on the
fixture report `Filter`/`Exclude` with arguments containing `b@d` behave
exactly as with the argument `spec.items` alone. -/
theorem unparseablePath_never_matches_witness :
    parseW "b@d" = none ∧
    (matchesParsedPath parseW ["spec.items", "b@d"] (some pItems) =
        matchesParsedPath parseW ["spec.items"] (some pItems) ∧
      reportW.Filter parseW ["spec.items", "b@d"] =
        reportW.filter (fun x => matchesParsedPath parseW ["spec.items"] x) ∧
      reportW.Exclude parseW ["spec.items", "b@d"] =
        reportW.filter (fun x => !(matchesParsedPath parseW ["spec.items"] x))) :=
  ⟨rfl, unparseablePath_never_matches parseW "b@d" rfl ["spec.items"] []
    (some pItems) reportW⟩

/-- The Go per-diff new-document test, when it does not panic, computes
the claim predicate `isNewDocumentDiff`. -/
theorem diffIsNewDocument_spec (d : Diff V) (b : Bool)
    (h : diffIsNewDocument d = some b) : isNewDocumentDiff d = b := by
  unfold diffIsNewDocument at h
  unfold isNewDocumentDiff
  cases hg : (d.Details.length == 1 && (d.Details.headD zeroDetail).Kind == ADDITION) with
  | false =>
    rw [hg] at h
    simp only [Bool.false_eq_true, if_false] at h
    cases h
    simp [hg]
  | true =>
    rw [hg] at h
    simp only [if_true] at h
    cases hp : d.Path with
    | none => rw [hp] at h; cases h
    | some p =>
      rw [hp] at h
      cases h
      simp [hg, hp]

/-- A successful run of the new-document removal loop keeps, in order,
exactly the diffs that are not new documents. -/
theorem ignoreNewDocumentsList_eq_filter (ds out : List (Diff V))
    (h : ignoreNewDocumentsList ds = some out) :
    out = ds.filter (fun d => !(isNewDocumentDiff d)) := by
  induction ds generalizing out with
  | nil => cases h; rfl
  | cons d rest ih =>
    unfold ignoreNewDocumentsList at h
    cases hd : diffIsNewDocument d with
    | none => rw [hd] at h; cases h
    | some b =>
      rw [hd] at h
      have hb := diffIsNewDocument_spec d b hd
      cases b with
      | true =>
        rw [List.filter_cons]
        simp only [hb, Bool.not_true, Bool.false_eq_true, if_false]
        exact ih out h
      | false =>
        cases hrest : ignoreNewDocumentsList rest with
        | none => rw [hrest] at h; cases h
        | some ds2 =>
          rw [hrest] at h
          cases h
          rw [List.filter_cons]
          simp only [hb, Bool.not_false, if_true]
          rw [ih ds2 hrest]

/-- A successful `IgnoreNewDocuments` keeps `From`/`To` and filters the
diffs by the new-document predicate. -/
theorem ignoreNewDocuments_eq (r : Report V M) (res : Report V M)
    (h : r.IgnoreNewDocuments = some res) :
    res.From = r.From ∧ res.To = r.To ∧
    res.Diffs = r.Diffs.filter (fun d => !(isNewDocumentDiff d)) := by
  unfold Report.IgnoreNewDocuments at h
  cases hl : ignoreNewDocumentsList r.Diffs with
  | none => rw [hl] at h; cases h
  | some ds =>
    rw [hl] at h
    cases h
    exact ⟨rfl, rfl, ignoreNewDocumentsList_eq_filter _ _ hl⟩

/-- Claim C3: every filter, exclude, or ignore operation produces a report
with the same `From` and `To` whose diff sequence is an in-order
subsequence of the input's diffs.  All operations are embedded as pure
functions of the input report, which is therefore left unchanged (Go
passes the receiver by value and appends into a fresh slice). -/
theorem operations_preserve_frame (parse : String → Option Path)
    (compile : String → Option Regexp) (paths patterns : List String)
    (r : Report V M) :
    preservesFrame r (r.Filter parse paths) ∧
    preservesFrame r (r.Exclude parse paths) ∧
    preservesFrame r (r.FilterDocument paths) ∧
    preservesFrame r (r.ExcludeDocument paths) ∧
    (∀ res, r.FilterRegexp compile patterns = some res → preservesFrame r res) ∧
    (∀ res, r.ExcludeRegexp compile patterns = some res → preservesFrame r res) ∧
    (∀ res, r.FilterDocumentRegexp compile patterns = some res → preservesFrame r res) ∧
    (∀ res, r.ExcludeDocumentRegexp compile patterns = some res → preservesFrame r res) ∧
    preservesFrame r r.IgnoreValueChanges ∧
    (∀ res, r.IgnoreNewDocuments = some res → preservesFrame r res) := by
  refine ⟨?_, ?_, ?_, ?_, ?_, ?_, ?_, ?_, ?_, ?_⟩
  · rw [Report.Filter]; split
    exacts [preservesFrame_refl r, filter_frame r _]
  · rw [Report.Exclude]; split
    exacts [preservesFrame_refl r, filter_frame r _]
  · rw [Report.FilterDocument]; split
    exacts [preservesFrame_refl r, filter_frame r _]
  · rw [Report.ExcludeDocument]; split
    exacts [preservesFrame_refl r, filter_frame r _]
  · intro res h
    rw [Report.FilterRegexp] at h
    split at h
    · cases h; exact preservesFrame_refl r
    · cases hca : compileAll compile patterns with
      | none => rw [hca] at h; cases h
      | some rs => rw [hca] at h; cases h; exact filter_frame r _
  · intro res h
    rw [Report.ExcludeRegexp] at h
    split at h
    · cases h; exact preservesFrame_refl r
    · cases hca : compileAll compile patterns with
      | none => rw [hca] at h; cases h
      | some rs => rw [hca] at h; cases h; exact filter_frame r _
  · intro res h
    rw [Report.FilterDocumentRegexp] at h
    split at h
    · cases h; exact preservesFrame_refl r
    · cases hca : compileAll compile patterns with
      | none => rw [hca] at h; cases h
      | some rs => rw [hca] at h; cases h; exact filter_frame r _
  · intro res h
    rw [Report.ExcludeDocumentRegexp] at h
    split at h
    · cases h; exact preservesFrame_refl r
    · cases hca : compileAll compile patterns with
      | none => rw [hca] at h; cases h
      | some rs => rw [hca] at h; cases h; exact filter_frame r _
  · exact ⟨rfl, rfl, List.filter_sublist _⟩
  · intro res h
    obtain ⟨h1, h2, h3⟩ := ignoreNewDocuments_eq r res h
    exact ⟨h1, h2, h3 ▸ List.filter_sublist _⟩

/-- Witness for claim C3: on the fixture report, the regexp filter with a
universally matching compiler succeeds and returns the report itself, the
new-document removal succeeds and keeps only the non-root diff, and the
frame property holds for these results. -/
theorem operations_preserve_frame_witness :
    (reportW.FilterRegexp compileW ["x"] = some reportW ∧
      reportW.IgnoreNewDocuments =
        some (⟨10, 20, [⟨some pItems, [dMod]⟩]⟩ : Report Nat Nat)) ∧
    preservesFrame reportW (reportW.Filter parseW ["spec.items"]) ∧
    preservesFrame reportW reportW ∧
    preservesFrame reportW (⟨10, 20, [⟨some pItems, [dMod]⟩]⟩ : Report Nat Nat) :=
  ⟨⟨rfl, rfl⟩,
    (operations_preserve_frame parseW compileW ["spec.items"] ["x"] reportW).1,
    (operations_preserve_frame parseW compileW ["spec.items"] ["x"]
      reportW).2.2.2.2.1 reportW rfl,
    (operations_preserve_frame parseW compileW ["spec.items"] ["x"]
      reportW).2.2.2.2.2.2.2.2.2 _ rfl⟩

/-- Claim C5: a successful `IgnoreNewDocuments` removes exactly the diffs
whose path has zero elements and whose detail list is a single `ADDITION`
detail, keeping everything else in order; in particular any diff with more
than one detail, or whose single detail is not an `ADDITION` (for example
a root-level `REMOVAL` or `MODIFICATION`), is kept. -/
theorem ignoreNewDocuments_removes_exactly (r : Report V M)
    (res : Report V M) (h : r.IgnoreNewDocuments = some res) :
    res.Diffs = r.Diffs.filter (fun d => !(isNewDocumentDiff d)) ∧
    (∀ d ∈ r.Diffs, d.Details.length ≠ 1 → d ∈ res.Diffs) ∧
    (∀ d ∈ r.Diffs, (d.Details.headD zeroDetail).Kind ≠ ADDITION →
      d ∈ res.Diffs) := by
  obtain ⟨-, -, h3⟩ := ignoreNewDocuments_eq r res h
  refine ⟨h3, ?_, ?_⟩
  · intro d hd hlen
    rw [h3]
    refine List.mem_filter.mpr ⟨hd, ?_⟩
    simp [isNewDocumentDiff, hlen]
  · intro d hd hkind
    rw [h3]
    refine List.mem_filter.mpr ⟨hd, ?_⟩
    rw [List.headD_eq_head?] at hkind
    simp [isNewDocumentDiff, hkind]

/-- Witness for claim C5: on the fixture report the operation succeeds,
only the whole-document addition is removed, and the kept-diff clauses
hold. -/
theorem ignoreNewDocuments_removes_exactly_witness :
    rNewDocs.IgnoreNewDocuments = some resNewDocs ∧
    (resNewDocs.Diffs = rNewDocs.Diffs.filter (fun d => !(isNewDocumentDiff d)) ∧
      (∀ d ∈ rNewDocs.Diffs, d.Details.length ≠ 1 → d ∈ resNewDocs.Diffs) ∧
      (∀ d ∈ rNewDocs.Diffs, (d.Details.headD zeroDetail).Kind ≠ ADDITION →
        d ∈ resNewDocs.Diffs)) :=
  ⟨rfl, ignoreNewDocuments_removes_exactly rNewDocs resNewDocs rfl⟩

/-- Inserting a diff with a per-diff property into the grouping preserves
the property across all stored groups. -/
theorem insertGroup_forall {P : Diff V → Prop} (k : String) (d : Diff V)
    (hd : P d) (m : List (String × List (Diff V)))
    (hm : ∀ g ∈ m, ∀ x ∈ g.2, P x) :
    ∀ g ∈ insertGroup m k d, ∀ x ∈ g.2, P x := by
  induction m with
  | nil =>
    intro g hg x hx
    rw [insertGroup] at hg
    rcases List.mem_singleton.mp hg with rfl
    rcases List.mem_singleton.mp hx with rfl
    exact hd
  | cons a rest ih =>
    obtain ⟨k', ds⟩ := a
    intro g hg x hx
    rw [insertGroup] at hg
    split at hg
    · rcases List.mem_cons.mp hg with rfl | hg2
      · rcases List.mem_append.mp hx with hx1 | hx2
        · exact hm (k', ds) (List.mem_cons_self _ _) x hx1
        · rcases List.mem_singleton.mp hx2 with rfl
          exact hd
      · exact hm g (List.mem_cons_of_mem _ hg2) x hx
    · rcases List.mem_cons.mp hg with rfl | hg2
      · exact hm (k', ds) (List.mem_cons_self _ _) x hx
      · exact ih (fun g' hg' => hm g' (List.mem_cons_of_mem _ hg')) g hg2 x hx

/-- The inserted diff is a member of the group of its key after
insertion. -/
theorem insertGroup_mem_self (k : String) (d : Diff V)
    (m : List (String × List (Diff V))) :
    ∃ ds, (k, ds) ∈ insertGroup m k d ∧ d ∈ ds := by
  induction m with
  | nil => exact ⟨[d], List.mem_singleton.mpr rfl, List.mem_singleton.mpr rfl⟩
  | cons a rest ih =>
    obtain ⟨k', ds'⟩ := a
    rw [insertGroup]
    by_cases hk : (k' == k) = true
    · rw [if_pos hk]
      have hkk : k' = k := by simpa using hk
      subst hkk
      exact ⟨ds' ++ [d], List.mem_cons_self _ _,
        List.mem_append_right _ (List.mem_singleton.mpr rfl)⟩
    · rw [if_neg hk]
      obtain ⟨ds2, h1, h2⟩ := ih
      exact ⟨ds2, List.mem_cons_of_mem _ h1, h2⟩

/-- Every diff stored in the grouping survives an insertion, still filed
under its key. -/
theorem insertGroup_mem_mono (k : String) (d : Diff V) (k0 : String)
    (x : Diff V) (m : List (String × List (Diff V))) (ds0 : List (Diff V))
    (hmem : (k0, ds0) ∈ m) (hx : x ∈ ds0) :
    ∃ ds', (k0, ds') ∈ insertGroup m k d ∧ x ∈ ds' := by
  induction m with
  | nil => cases hmem
  | cons a rest ih =>
    obtain ⟨k', ds'⟩ := a
    rw [insertGroup]
    by_cases hk : (k' == k) = true
    · rw [if_pos hk]
      rcases List.mem_cons.mp hmem with heq | htail
      · obtain ⟨h1, h2⟩ := Prod.mk.injEq .. ▸ heq
        subst h1
        subst h2
        exact ⟨ds0 ++ [d], List.mem_cons_self _ _, List.mem_append_left _ hx⟩
      · exact ⟨ds0, List.mem_cons_of_mem _ htail, hx⟩
    · rw [if_neg hk]
      rcases List.mem_cons.mp hmem with heq | htail
      · obtain ⟨h1, h2⟩ := Prod.mk.injEq .. ▸ heq
        subst h1
        subst h2
        exact ⟨ds0, List.mem_cons_self _ _, hx⟩
      · obtain ⟨ds2, h1, h2⟩ := ih htail
        exact ⟨ds2, List.mem_cons_of_mem _ h1, h2⟩

/-- Every group produced by a successful grouping loop contains only
single-detail diffs (given that the accumulator does). -/
theorem consolidateGroups_singletons (ds : List (Diff V)) :
    ∀ (m out : List (String × List (Diff V))),
      consolidateGroups m ds = some out →
      (∀ g ∈ m, ∀ x ∈ g.2, x.Details.length = 1) →
      ∀ g ∈ out, ∀ x ∈ g.2, x.Details.length = 1 := by
  induction ds with
  | nil =>
    intro m out h hm
    cases h
    exact hm
  | cons d rest ih =>
    intro m out h hm
    rw [consolidateGroups] at h
    cases hp : d.Path with
    | none => rw [hp] at h; cases h
    | some p =>
      rw [hp] at h
      exact ih _ out h
        (@insertGroup_forall V (fun x => x.Details.length = 1) p.rootDescription
          ⟨some p, [consolidateDetail d.Details]⟩ rfl m hm)

/-- Every diff stored in the accumulator survives a successful grouping
loop, still filed under its key. -/
theorem consolidateGroups_mono (ds : List (Diff V)) :
    ∀ (m out : List (String × List (Diff V))),
      consolidateGroups m ds = some out →
      ∀ (k0 : String) (ds0 : List (Diff V)), (k0, ds0) ∈ m → ∀ x ∈ ds0,
        ∃ ds', (k0, ds') ∈ out ∧ x ∈ ds' := by
  induction ds with
  | nil =>
    intro m out h k0 ds0 hm x hx
    cases h
    exact ⟨ds0, hm, hx⟩
  | cons d rest ih =>
    intro m out h k0 ds0 hm x hx
    rw [consolidateGroups] at h
    cases hp : d.Path with
    | none => rw [hp] at h; cases h
    | some p =>
      rw [hp] at h
      obtain ⟨ds1, h1, h2⟩ := insertGroup_mem_mono p.rootDescription
        ⟨some p, [consolidateDetail d.Details]⟩ k0 x m ds0 hm hx
      exact ih _ out h k0 ds1 h1 x h2

/-- Each processed diff contributes its consolidated form to some group
of the final mapping. -/
theorem consolidateGroups_contrib (ds : List (Diff V)) :
    ∀ (m out : List (String × List (Diff V))),
      consolidateGroups m ds = some out →
      ∀ d0 ∈ ds, ∃ g ∈ out,
        (⟨d0.Path, [consolidateDetail d0.Details]⟩ : Diff V) ∈ g.2 := by
  induction ds with
  | nil =>
    intro m out h d0 hd0
    cases hd0
  | cons d rest ih =>
    intro m out h d0 hd0
    rw [consolidateGroups] at h
    cases hp : d.Path with
    | none => rw [hp] at h; cases h
    | some p =>
      rw [hp] at h
      rcases List.mem_cons.mp hd0 with rfl | htail
      · rw [hp]
        obtain ⟨ds1, h1, h2⟩ := insertGroup_mem_self p.rootDescription
          ⟨some p, [consolidateDetail d0.Details]⟩ m
        obtain ⟨ds2, hh1, hh2⟩ := consolidateGroups_mono rest _ out h
          p.rootDescription ds1 h1 _ h2
        exact ⟨(p.rootDescription, ds2), hh1, hh2⟩
      · exact ih _ out h d0 htail

/-- A detail list of length other than one and two consolidates to the
zero-valued detail. -/
theorem consolidateDetail_other (details : List (Detail V))
    (h1 : details.length ≠ 1) (h2 : details.length ≠ 2) :
    consolidateDetail details = zeroDetail := by
  cases details with
  | nil => rfl
  | cons d t =>
    cases t with
    | nil => exact absurd rfl h1
    | cons d2 t2 =>
      cases t2 with
      | nil => exact absurd rfl h2
      | cons d3 t3 => rfl

/-- Claim C9: after the consolidation step, every diff in every group of
the mapping carries exactly one detail; an input diff with zero details
or with three or more details is represented in its document's group by a
diff with the single zero-valued detail (zero kind, no From, no To). -/
theorem consolidation_single_detail (r : Report V M)
    (m : List (String × List (Diff V))) (h : consolidateDiff r = some m) :
    (∀ g ∈ m, ∀ x ∈ g.2, x.Details.length = 1) ∧
    (∀ d0 ∈ r.Diffs, d0.Details.length ≠ 1 → d0.Details.length ≠ 2 →
      ∃ g ∈ m, (⟨d0.Path, [zeroDetail]⟩ : Diff V) ∈ g.2) := by
  constructor
  · exact consolidateGroups_singletons r.Diffs [] m h (by intro g hg; cases hg)
  · intro d0 hd0 h1 h2
    have hc := consolidateGroups_contrib r.Diffs [] m h d0 hd0
    rwa [consolidateDetail_other d0.Details h1 h2] at hc

/-- Witness for claim C9: the fixture report with a three-detail diff
consolidates into a single group holding one diff whose detail list is
exactly the zero-valued detail. -/
theorem consolidation_single_detail_witness :
    consolidateDiff rThreeDetails =
      some [("file1.yaml (doc 0)", [(⟨some pRootA, [zeroDetail]⟩ : Diff Nat)])] ∧
    ((∀ g ∈ [("file1.yaml (doc 0)", [(⟨some pRootA, [zeroDetail]⟩ : Diff Nat)])],
        ∀ x ∈ g.2, x.Details.length = 1) ∧
      (∀ d0 ∈ rThreeDetails.Diffs, d0.Details.length ≠ 1 →
        d0.Details.length ≠ 2 →
        ∃ g ∈ [("file1.yaml (doc 0)", [(⟨some pRootA, [zeroDetail]⟩ : Diff Nat)])],
          (⟨d0.Path, [zeroDetail]⟩ : Diff Nat) ∈ g.2)) :=
  ⟨rfl, consolidation_single_detail rThreeDetails _ rfl⟩

/-- Any two-detail list consolidates to one `MODIFICATION` detail whose
`From` is the last `REMOVAL` detail's `From` (none when neither detail is
a `REMOVAL`) and whose `To` is the last `ADDITION` detail's `To` (none
when neither is an `ADDITION`). -/
theorem consolidateDetail_pair (d1 d2 : Detail V) :
    consolidateDetail [d1, d2] =
      ⟨MODIFICATION,
        (if d2.Kind = REMOVAL then d2.From
         else if d1.Kind = REMOVAL then d1.From else none),
        (if d2.Kind = ADDITION then d2.To
         else if d1.Kind = ADDITION then d1.To else none)⟩ := by
  rw [consolidateDetail]
  by_cases h1a : d1.Kind = ADDITION <;>
    by_cases h1r : d1.Kind = REMOVAL <;>
      by_cases h2a : d2.Kind = ADDITION <;>
        by_cases h2r : d2.Kind = REMOVAL <;>
          simp_all [zeroDetail, ADDITION, REMOVAL]

/-- Claim C1 (amended): per processed diff the consolidation step passes
a single detail through unchanged, and merges an `ADDITION`/`REMOVAL`
pair (in either order) into one `MODIFICATION` detail built from the
`REMOVAL`'s `From` and the `ADDITION`'s `To`.  However, the other
detail-count/kind combinations are NOT passed through unmodified: every
two-detail list becomes a single `MODIFICATION` detail (components taken
from the last `ADDITION`/`REMOVAL` details, absent otherwise), and a list
of zero or of three or more details is replaced by the single zero-valued
detail.  Each processed diff contributes precisely its consolidated form
to its document's group. -/
theorem consolidateDetail_rules :
    (∀ d : Detail V, consolidateDetail [d] = d) ∧
    (∀ d1 d2 : Detail V, d1.Kind = ADDITION → d2.Kind = REMOVAL →
      consolidateDetail [d1, d2] = ⟨MODIFICATION, d2.From, d1.To⟩) ∧
    (∀ d1 d2 : Detail V, d1.Kind = REMOVAL → d2.Kind = ADDITION →
      consolidateDetail [d1, d2] = ⟨MODIFICATION, d1.From, d2.To⟩) ∧
    (∀ d1 d2 : Detail V, consolidateDetail [d1, d2] =
      ⟨MODIFICATION,
        (if d2.Kind = REMOVAL then d2.From
         else if d1.Kind = REMOVAL then d1.From else none),
        (if d2.Kind = ADDITION then d2.To
         else if d1.Kind = ADDITION then d1.To else none)⟩) ∧
    (∀ details : List (Detail V), details.length ≠ 1 → details.length ≠ 2 →
      consolidateDetail details = zeroDetail) ∧
    (∀ (r : Report V M) m, consolidateDiff r = some m →
      ∀ d0 ∈ r.Diffs, ∃ g ∈ m,
        (⟨d0.Path, [consolidateDetail d0.Details]⟩ : Diff V) ∈ g.2) := by
  have har : ¬(ADDITION = REMOVAL) := by decide
  have hra : ¬(REMOVAL = ADDITION) := by decide
  refine ⟨fun d => rfl, ?_, ?_, consolidateDetail_pair, consolidateDetail_other,
    fun r m h d0 hd0 => consolidateGroups_contrib r.Diffs [] m h d0 hd0⟩
  · intro d1 d2 h1 h2
    rw [consolidateDetail_pair]
    rw [h1, h2]
    simp [eq_false hra, eq_false har]
  · intro d1 d2 h1 h2
    rw [consolidateDetail_pair]
    rw [h1, h2]
    simp [eq_false hra, eq_false har]

/-- Counterexample to claim C1 as stated: the fixture diff with three
`MODIFICATION` details is not passed through unmodified by the
consolidation step — its three-detail list is replaced by the single
zero-valued detail. -/
theorem consolidation_not_pass_through :
    consolidateDiff rThreeDetails =
      some [("file1.yaml (doc 0)", [(⟨some pRootA, [zeroDetail]⟩ : Diff Nat)])] ∧
    ([zeroDetail] : List (Detail Nat)) ≠ [dMod, dMod, dMod] :=
  ⟨rfl, by decide⟩

/-- Witness for claim C1 (amended): concrete `ADDITION`/`REMOVAL` details
merge into the expected `MODIFICATION`, and on the concrete two-document
report every processed diff contributes its consolidated form to its
document's group. -/
theorem consolidateDetail_rules_witness :
    (dAdd.Kind = ADDITION ∧ dRem.Kind = REMOVAL) ∧
    consolidateDetail [dAdd, dRem] = (⟨MODIFICATION, dRem.From, dAdd.To⟩ : Detail Nat) ∧
    (consolidateDiff rTwoDocs =
        some [("file1.yaml (doc 0)", [(⟨some pRootA, [dMod]⟩ : Diff Nat)]),
          ("file2.yaml (doc 0)", [(⟨some pRootB, [dMod]⟩ : Diff Nat)])] ∧
      ∀ d0 ∈ rTwoDocs.Diffs,
        ∃ g ∈ [("file1.yaml (doc 0)", [(⟨some pRootA, [dMod]⟩ : Diff Nat)]),
            ("file2.yaml (doc 0)", [(⟨some pRootB, [dMod]⟩ : Diff Nat)])],
          (⟨d0.Path, [consolidateDetail d0.Details]⟩ : Diff Nat) ∈ g.2) :=
  ⟨⟨rfl, rfl⟩,
    (@consolidateDetail_rules Nat Nat).2.1 dAdd dRem rfl rfl,
    rfl,
    (@consolidateDetail_rules Nat Nat).2.2.2.2.2 rTwoDocs _ rfl⟩

/-- Claim C2, evaluated at the failing input: the two-document fixture
report consolidates into a mapping with two distinct document keys, so
the `for file, diffs := range report.consolidateDiff()` loop of the Go
`WriteReport` iterates a multi-key unordered map; Go randomises that
iteration order, while the claim (and the spec's rendering-order
invariant) requires the first-seen insertion order that this embedding's
association list realises. -/
theorem grouping_has_two_distinct_keys :
    consolidateDiff rTwoDocs =
      some [("file1.yaml (doc 0)", [(⟨some pRootA, [dMod]⟩ : Diff Nat)]),
        ("file2.yaml (doc 0)", [(⟨some pRootB, [dMod]⟩ : Diff Nat)])] ∧
    ("file1.yaml (doc 0)" : String) ≠ "file2.yaml (doc 0)" :=
  ⟨rfl, by decide⟩

/-- A nil diff path never matches any exact filter path argument. -/
theorem matchesParsedPath_none (parse : String → Option Path)
    (paths : List String) : matchesParsedPath parse paths none = false := by
  unfold matchesParsedPath
  induction paths with
  | nil => rfl
  | cons s rest ih =>
    rw [List.any_cons, ih]
    have hs : pathStringMatches parse none s = false := by
      unfold pathStringMatches
      cases parse s <;> rfl
    rw [hs]
    rfl

/-- A nil diff path never matches any document name argument. -/
theorem matchesDocument_none (paths : List String) :
    matchesDocument paths none = false := by
  unfold matchesDocument
  induction paths with
  | nil => rfl
  | cons s rest ih =>
    rw [List.any_cons, ih]
    rfl

/-- A nil diff path never matches any compiled regexp in the path-based
regexp operations. -/
theorem anyMatchRender_none (rs : List Regexp) :
    (rs.any fun re =>
      match (none : Option Path) with
      | some p => re.MatchString p.render
      | none => false) = false := by
  induction rs with
  | nil => rfl
  | cons a t ih =>
    rw [List.any_cons, ih]
    rfl

/-- A nil diff path never matches any compiled regexp in the
document-based regexp operations. -/
theorem anyMatchRoot_none (rs : List Regexp) :
    (rs.any fun re =>
      match (none : Option Path) with
      | some p => re.MatchString p.rootDescription
      | none => false) = false := by
  induction rs with
  | nil => rfl
  | cons a t ih =>
    rw [List.any_cons, ih]
    rfl

/-- Claim C10: with non-empty argument lists, a diff whose path is nil
can never match a keep-predicate or a drop-predicate: the four
keep-style operations always drop it, and the four drop-style operations
always keep it (for the regexp variants, in whichever report the
operation returns at all). -/
theorem nilPath_drop_keep (parse : String → Option Path)
    (compile : String → Option Regexp) (paths patterns : List String)
    (hpaths : paths ≠ []) (hpatterns : patterns ≠ [])
    (r : Report V M) (d : Diff V) (hd : d ∈ r.Diffs) (hnil : d.Path = none) :
    d ∉ (r.Filter parse paths).Diffs ∧
    d ∈ (r.Exclude parse paths).Diffs ∧
    d ∉ (r.FilterDocument paths).Diffs ∧
    d ∈ (r.ExcludeDocument paths).Diffs ∧
    (∀ res, r.FilterRegexp compile patterns = some res → d ∉ res.Diffs) ∧
    (∀ res, r.ExcludeRegexp compile patterns = some res → d ∈ res.Diffs) ∧
    (∀ res, r.FilterDocumentRegexp compile patterns = some res → d ∉ res.Diffs) ∧
    (∀ res, r.ExcludeDocumentRegexp compile patterns = some res → d ∈ res.Diffs) := by
  have hpe : paths.isEmpty = false := by
    cases paths
    · exact absurd rfl hpaths
    · rfl
  have hte : patterns.isEmpty = false := by
    cases patterns
    · exact absurd rfl hpatterns
    · rfl
  refine ⟨?_, ?_, ?_, ?_, ?_, ?_, ?_, ?_⟩
  · rw [Report.Filter, hpe]
    simp only [Bool.false_eq_true, if_false]
    intro hmem
    have hp2 : matchesParsedPath parse paths d.Path = true :=
      (List.mem_filter.mp hmem).2
    rw [hnil, matchesParsedPath_none] at hp2
    cases hp2
  · rw [Report.Exclude, hpe]
    simp only [Bool.false_eq_true, if_false]
    refine List.mem_filter.mpr ⟨hd, ?_⟩
    show (!(matchesParsedPath parse paths d.Path)) = true
    rw [hnil, matchesParsedPath_none]
    rfl
  · rw [Report.FilterDocument, hpe]
    simp only [Bool.false_eq_true, if_false]
    intro hmem
    have hp2 : matchesDocument paths d.Path = true :=
      (List.mem_filter.mp hmem).2
    rw [hnil, matchesDocument_none] at hp2
    cases hp2
  · rw [Report.ExcludeDocument, hpe]
    simp only [Bool.false_eq_true, if_false]
    refine List.mem_filter.mpr ⟨hd, ?_⟩
    show (!(matchesDocument paths d.Path)) = true
    rw [hnil, matchesDocument_none]
    rfl
  · intro res h
    rw [Report.FilterRegexp, hte] at h
    simp only [Bool.false_eq_true, if_false] at h
    cases hca : compileAll compile patterns with
    | none => rw [hca] at h; cases h
    | some rs =>
      rw [hca] at h
      cases h
      intro hmem
      have hp2 : (rs.any fun re =>
          match d.Path with
          | some p => re.MatchString p.render
          | none => false) = true := (List.mem_filter.mp hmem).2
      rw [hnil, anyMatchRender_none] at hp2
      cases hp2
  · intro res h
    rw [Report.ExcludeRegexp, hte] at h
    simp only [Bool.false_eq_true, if_false] at h
    cases hca : compileAll compile patterns with
    | none => rw [hca] at h; cases h
    | some rs =>
      rw [hca] at h
      cases h
      refine List.mem_filter.mpr ⟨hd, ?_⟩
      show (!(rs.any fun re =>
        match d.Path with
        | some p => re.MatchString p.render
        | none => false)) = true
      rw [hnil, anyMatchRender_none]
      rfl
  · intro res h
    rw [Report.FilterDocumentRegexp, hte] at h
    simp only [Bool.false_eq_true, if_false] at h
    cases hca : compileAll compile patterns with
    | none => rw [hca] at h; cases h
    | some rs =>
      rw [hca] at h
      cases h
      intro hmem
      have hp2 : (rs.any fun re =>
          match d.Path with
          | some p => re.MatchString p.rootDescription
          | none => false) = true := (List.mem_filter.mp hmem).2
      rw [hnil, anyMatchRoot_none] at hp2
      cases hp2
  · intro res h
    rw [Report.ExcludeDocumentRegexp, hte] at h
    simp only [Bool.false_eq_true, if_false] at h
    cases hca : compileAll compile patterns with
    | none => rw [hca] at h; cases h
    | some rs =>
      rw [hca] at h
      cases h
      refine List.mem_filter.mpr ⟨hd, ?_⟩
      show (!(rs.any fun re =>
        match d.Path with
        | some p => re.MatchString p.rootDescription
        | none => false)) = true
      rw [hnil, anyMatchRoot_none]
      rfl

/-- Witness for claim C10: on the fixture report holding a nil-path diff,
the keep-style operations drop it and the drop-style operations keep it. -/
theorem nilPath_drop_keep_witness :
    ((["spec.items"] : List String) ≠ [] ∧ (["x"] : List String) ≠ [] ∧
      (⟨none, [dMod]⟩ : Diff Nat) ∈ rNilPath.Diffs ∧
      (⟨none, [dMod]⟩ : Diff Nat).Path = none) ∧
    (⟨none, [dMod]⟩ : Diff Nat) ∉ (rNilPath.Filter parseW ["spec.items"]).Diffs ∧
    (⟨none, [dMod]⟩ : Diff Nat) ∈ (rNilPath.Exclude parseW ["spec.items"]).Diffs ∧
    (⟨none, [dMod]⟩ : Diff Nat) ∉ (rNilPath.FilterDocument ["spec.items"]).Diffs ∧
    (⟨none, [dMod]⟩ : Diff Nat) ∈ (rNilPath.ExcludeDocument ["spec.items"]).Diffs ∧
    (⟨none, [dMod]⟩ : Diff Nat) ∉
      (⟨10, 20, [⟨some pItems, [dMod]⟩]⟩ : Report Nat Nat).Diffs ∧
    (⟨none, [dMod]⟩ : Diff Nat) ∈
      (⟨10, 20, [⟨none, [dMod]⟩]⟩ : Report Nat Nat).Diffs := by
  have h1 : (["spec.items"] : List String) ≠ [] := by simp
  have h2 : (["x"] : List String) ≠ [] := by simp
  have h3 : (⟨none, [dMod]⟩ : Diff Nat) ∈ rNilPath.Diffs :=
    List.mem_cons_self _ _
  have T := nilPath_drop_keep parseW compileW ["spec.items"] ["x"] h1 h2
    rNilPath ⟨none, [dMod]⟩ h3 rfl
  exact ⟨⟨h1, h2, h3, rfl⟩, T.1, T.2.1, T.2.2.1, T.2.2.2.1,
    T.2.2.2.2.1 _ rfl, T.2.2.2.2.2.1 _ rfl⟩

end DyffSpec
